import Mathlib

/-!
Verification model of the zeta987/insights-bot recap delivery pipeline.

The definitions below are shallow embeddings of the Go sources:

* `Telegraph.SplitContentIntoParts`, `Telegraph.CreatePage`,
  `Telegraph.EditPage`, `Telegraph.DeletePage`, `Telegraph.CreatePageSeries`
  embed the telegraph service (src/unnamed/part_003, with the sibling
  revision src/unnamed/part_002 differing only in how sizes are measured).
* The `AutoRecap` namespace embeds the auto-recap scheduler handler and the
  `summarize` pipeline of
  src/internal/bots/telegram/handlers/recap/command_common.go.  That file
  contains three revisions of the `autorecap` package; where they differ
  materially both the earliest revision (suffix `V1`) and the latest
  revision (suffix `Latest`) are embedded.

Go strings are measured by `len`, i.e. by UTF-8 byte length, which is
additive under concatenation.  Pages under construction are therefore
represented as lists of segments, one segment per string appended by the Go
code, each segment carrying its byte size; the size of the page is the sum
of the sizes of its segments, exactly the Go `len` of the concatenation.
-/

/-- A paragraph piece of an HTML document, as produced by
`strings.Split(html, "</p>")` followed by re-appending the closing tag:
`content` is the piece's text and `size` its byte length (Go `len content`).
The size is carried explicitly so that page sizes can be computed additively
without re-encoding strings. -/
structure Para where
  content : String
  size : Nat
  deriving DecidableEq, Repr

namespace Telegraph

/-- Byte length of the decimal representation of `k`, as printed by Go's
`fmt.Sprintf("%d", k)` inside the continuation-page header. -/
def decimalDigits (k : Nat) : Nat := (Nat.toDigits 10 k).length

/-- Segments of a Telegraph page built by `SplitContentIntoParts`
(src/unnamed/part_003 lines 396-439).  Each constructor corresponds to one
string the Go code appends to `currentPart`:

* `header`     - the leading notice `headerHTML`;
* `contTitle k` - `fmt.Sprintf("<p><strong>%s（續 %d）</strong></p>", title, k)`;
* `contNote`   - the continuation notice appended right after `contTitle`;
* `para p`     - one re-closed paragraph of the input document;
* `footerMid`  - the footer closing a non-final page;
* `footerEnd`  - the footer closing the final page. -/
inductive Seg where
  | header : Seg
  | contTitle (k : Nat) : Seg
  | contNote : Seg
  | para (p : Para) : Seg
  | footerMid : Seg
  | footerEnd : Seg
  deriving DecidableEq, Repr

/-- UTF-8 byte length of the Go literal
`"<p><strong>注意：</strong>由於內容較長，已自動分割為多個頁面</p><hr>"`. -/
def headerSize : Nat := 88

/-- UTF-8 byte length of the Go literal
`"<p><strong>注意：</strong>這是分割內容的續頁</p><hr>"`. -/
def contNoteSize : Nat := 64

/-- UTF-8 byte length of the Go literal
`"<hr><p><em>（本頁面為分割內容，請查看系列頁面獲取完整總結）</em></p>"`. -/
def footerMidSize : Nat := 92

/-- UTF-8 byte length of the Go literal
`"<hr><p><em>（系列頁面結束）</em></p>"`. -/
def footerEndSize : Nat := 44

/-- Byte size of one segment.  `ts` is the byte length of the series title,
which the Go code splices into every continuation header; the fixed parts of
that header (`"<p><strong>"`, `"（續 "`, `"）</strong></p>"`) total 34 bytes. -/
def segSize (ts : Nat) : Seg → Nat
  | .header => headerSize
  | .contTitle k => 34 + ts + decimalDigits k
  | .contNote => contNoteSize
  | .para p => p.size
  | .footerMid => footerMidSize
  | .footerEnd => footerEndSize

/-- A page is the list of strings (segments) concatenated by the Go code. -/
abbrev Page := List Seg

/-- Byte length of the concatenated page, i.e. Go `len(currentPart)`. -/
def pageSize (ts : Nat) (pg : Page) : Nat := (pg.map (segSize ts)).sum

/-- Byte length of the input document, i.e. Go `len(html)`: the document is
the concatenation of its re-closed paragraphs. -/
def docSize (paras : List Para) : Nat := (paras.map Para.size).sum

/-- The paragraphs of a page, in order, ignoring the injected header,
continuation-header and footer segments. -/
def pageParas (pg : Page) : List Para :=
  pg.filterMap fun s =>
    match s with
    | .para p => some p
    | _ => none

/-- One iteration of the paragraph loop of `SplitContentIntoParts`
(src/unnamed/part_003 lines 410-429).  State: the closed pages so far and the
page under construction.  If appending the paragraph would reach the 63 KB
threshold, the current page is closed with `footerMid` and a fresh page is
opened with the continuation header (numbered `len(parts)+1` measured after
the append, exactly as in the Go code); the paragraph is then appended to the
current page in either case. -/
def splitStep (ts : Nat) (st : List Page × Page) (p : Para) : List Page × Page :=
  let parts := st.1
  let cur := st.2
  if 63 * 1024 ≤ pageSize ts cur + p.size then
    let parts2 := parts ++ [cur ++ [Seg.footerMid]]
    (parts2, [Seg.contTitle (parts2.length + 1), Seg.contNote, Seg.para p])
  else
    (parts, cur ++ [Seg.para p])

/-- Go `SplitContentIntoParts` (src/unnamed/part_003 lines 396-439).  A document
shorter than 64 KB is returned unchanged as a single page.  Otherwise the
paragraphs are folded through `splitStep` starting from a page holding only
`headerHTML`; at the end the page under construction is closed with
`footerEnd` and kept unless it still equals the bare header.

The sibling revision (src/unnamed/part_002 lines 514-611) differs only in
measuring sizes by serialized Telegraph-node JSON length instead of raw byte
length; its paragraph bookkeeping is identical. -/
def SplitContentIntoParts (ts : Nat) (paras : List Para) : List Page :=
  if docSize paras < 64 * 1024 then
    [paras.map Seg.para]
  else
    let st := paras.foldl (splitStep ts) ([], [Seg.header])
    if 0 < st.2.length ∧ st.2 ≠ [Seg.header] then
      st.1 ++ [st.2 ++ [Seg.footerEnd]]
    else
      st.1

namespace Client

/-- Configuration of the Telegraph service (the fields of `configs.Config`
used by the client): the publishing access token. -/
structure TelegraphCfg where
  accessToken : String
  deriving DecidableEq, Repr

/-- One API call issued to the Telegraph platform, recorded with the title
(and, for edits, the page path) it was issued with. -/
inductive TgCall where
  | createPage (title : String)
  | editPage (path : String) (title : String)
  deriving DecidableEq, Repr

/-- Go constant `maxRetries = 3` (src/unnamed/part_003 line 25). -/
def maxRetries : Nat := 3

/-- Go `strings.TrimPrefix(path, "https://telegra.ph/")`. -/
def trimPathPrefix (path : String) : String :=
  if path.startsWith "https://telegra.ph/" then
    path.drop "https://telegra.ph/".length
  else
    path

/-- Go `CreatePage` (src/unnamed/part_003 lines 175-236).  With an empty access
token the call returns an error immediately, before the retry loop.
Otherwise the Go code schedules `maxRetries` raced attempts (all are issued;
`attempts i` is the page URL produced by attempt `i`, or `none` on failure);
the call succeeds iff some attempt succeeded.  The racy winner choice is
modelled as the first successful attempt. -/
def CreatePage (cfg : TelegraphCfg) (attempts : Nat → Option String)
    (title : String) : Except String String × List TgCall :=
  if cfg.accessToken = "" then
    (.error "telegraph access token is not configured", [])
  else
    let calls := (List.range maxRetries).map fun _ => TgCall.createPage title
    match ((List.range maxRetries).filterMap attempts).head? with
    | some url => (.ok url, calls)
    | none => (.error "failed to create Telegraph page after 3 attempts", calls)

/-- Go `EditPage` (src/unnamed/part_003 lines 240-304): same token guard and
retry structure as `CreatePage`, after stripping the site prefix from the
page path. -/
def EditPage (cfg : TelegraphCfg) (attempts : Nat → Option String)
    (path title : String) : Except String String × List TgCall :=
  if cfg.accessToken = "" then
    (.error "telegraph access token is not configured", [])
  else
    let p := trimPathPrefix path
    let calls := (List.range maxRetries).map fun _ => TgCall.editPage p title
    match ((List.range maxRetries).filterMap attempts).head? with
    | some url => (.ok url, calls)
    | none => (.error "failed to edit Telegraph page after 3 attempts", calls)

/-- Go `DeletePage` (src/unnamed/part_003 lines 309-372): Telegraph has no
delete API, so the page is edited to a placeholder body with title
`"Deleted Page"`; the same token guard and retry structure apply.
`attempts i = true` means edit attempt `i` succeeded. -/
def DeletePage (cfg : TelegraphCfg) (attempts : Nat → Bool)
    (path : String) : Except String Bool × List TgCall :=
  if cfg.accessToken = "" then
    (.error "telegraph access token is not configured", [])
  else
    let p := trimPathPrefix path
    let calls := (List.range maxRetries).map fun _ => TgCall.editPage p "Deleted Page"
    if ((List.range maxRetries).filter attempts).isEmpty then
      (.error "failed to delete Telegraph page after 3 attempts", calls)
    else
      (.ok true, calls)

/-- Go `CreatePageSeries` (src/unnamed/part_003 lines 443-508).  With an empty
access token the call errors out before splitting or creating anything.
Otherwise the content is split with `SplitContentIntoParts`; one
`CreatePage` is issued per part (part `i > 0` titled `title-(i+1)`; failed
parts are skipped), an error is returned when no page was created, and each
created page is then edited to prepend the series-links header (edit
failures are logged only).  `createAttempts i` are the attempt results for
part `i`; `urlPath u` is the path of a returned URL; `editAttempts i` are
the edit-attempt results for created page `i`. -/
def CreatePageSeries (cfg : TelegraphCfg)
    (createAttempts : Nat → Nat → Option String)
    (editAttempts : Nat → Nat → Option String)
    (title : String) (ts : Nat) (paras : List Para) :
    Except String (List String) × List TgCall :=
  if cfg.accessToken = "" then
    (.error "telegraph access token is not configured", [])
  else
    let parts := SplitContentIntoParts ts paras
    let created := parts.enum.foldl
      (fun (acc : List (String × String) × List TgCall) ip =>
        let pageTitle := if 0 < ip.1 then title ++ "-" ++ toString (ip.1 + 1) else title
        let r := CreatePage cfg (createAttempts ip.1) pageTitle
        match r.1 with
        | .ok url => (acc.1 ++ [(url, pageTitle)], acc.2 ++ r.2)
        | .error _ => (acc.1, acc.2 ++ r.2))
      ([], [])
    if created.1.isEmpty then
      (.error "failed to create any Telegraph pages for the series", created.2)
    else
      let edited := created.1.enum.foldl
        (fun (calls : List TgCall) iu =>
          let r := EditPage cfg (editAttempts iu.1) iu.2.1 iu.2.2
          calls ++ r.2)
        created.2
      (.ok (created.1.map Prod.fst), edited)

end Client

end Telegraph

namespace AutoRecap

/-- Go `tgchat.AutoRecapSendMode` (src/pkg/types/tgchat/recap.go): recaps are
either broadcast publicly to the group or sent only to private subscribers. -/
inductive AutoRecapSendMode where
  | publicly : AutoRecapSendMode
  | onlyPrivateSubscriptions : AutoRecapSendMode
  deriving DecidableEq, Repr

/-- The fields of `ent.TelegramChatRecapsOptions` read by the auto-recap
pipeline. -/
structure RecapOptions where
  autoRecapSendMode : AutoRecapSendMode
  autoRecapRatesPerDay : Int
  pinAutoRecapMessage : Bool
  deriving DecidableEq, Repr

/-- An `ent.TelegramChatAutoRecapsSubscribers` row: the opted-in user. -/
structure Subscriber where
  userID : Int
  deriving DecidableEq, Repr

/-- Go `telegram.MemberStatus` values returned by `GetChatMember`. -/
inductive MemberStatus where
  | creator : MemberStatus
  | administrator : MemberStatus
  | member : MemberStatus
  | restricted : MemberStatus
  | left : MemberStatus
  | kicked : MemberStatus
  deriving DecidableEq, Repr

/-- The membership check of the subscriber-revalidation loop
(command_common.go lines 705-710, first autorecap revision):
`lo.Contains([administrator, creator, member, restricted], status)`. -/
def allowedMemberStatus : MemberStatus → Bool
  | .administrator => true
  | .creator => true
  | .member => true
  | .restricted => true
  | _ => false

/-- True when an operation's result is an error. -/
def isErr {α : Type} : Except Unit α → Bool
  | .error _ => true
  | .ok _ => false

/-- The outcome of the three option/subscriber store reads performed by the
scheduler handler, each after `lo.Attempt(10, ...)`: `.ok v` when some of the
10 attempts succeeded with value `v`, `.error ()` when all 10 failed (the Go
variable then keeps its zero value: `false`, `nil`, `nil`). -/
structure HandlerReads where
  enabledRead : Except Unit Bool
  optionsRead : Except Unit (Option RecapOptions)
  subscribersRead : Except Unit (List Subscriber)

/-- Observable actions of the scheduler handler: re-enqueueing the chat's
recap capsule (`QueueOneSendChatHistoriesRecapTaskForChatID`) and dispatching
the heavy `summarize` work onto the worker pool. -/
inductive HandlerEv where
  | requeue : HandlerEv
  | dispatchSummarize : HandlerEv
  deriving DecidableEq, Repr

/-- Go line 547: `options != nil && AutoRecapSendMode(options.AutoRecapSendMode)
== AutoRecapSendModeOnlyPrivateSubscriptions`. -/
def isPrivateOnly : Option RecapOptions → Bool
  | some o => o.autoRecapSendMode == .onlyPrivateSubscriptions
  | none => false

/-- Go `sendChatHistoriesRecapTimeCapsuleHandler` (command_common.go lines
484-557; the block is identical in all three revisions of the file, e.g.
lines 1791-1864 in the latest).  Control flow:

1. the three reads run, each retried 10 times; on failure the variable keeps
   its zero value;
2. `may.HandleErrors` fires its callback only when at least one read
   errored, and the callback re-enqueues the task;
3. `if !enabled { return }` - note this return is NOT preceded by a requeue
   on the no-error path;
4. the task is re-enqueued ("always requeue");
5. private-subscriptions mode with zero subscribers skips the run;
6. otherwise `summarize` is dispatched onto the bounded pool. -/
def sendChatHistoriesRecapTimeCapsuleHandler (r : HandlerReads) : List HandlerEv :=
  let enabled := match r.enabledRead with
    | .ok b => b
    | .error _ => false
  let options := match r.optionsRead with
    | .ok o => o
    | .error _ => none
  let subscribers := match r.subscribersRead with
    | .ok s => s
    | .error _ => []
  let tr := if isErr r.enabledRead || isErr r.optionsRead || isErr r.subscribersRead then
      [HandlerEv.requeue]
    else []
  if !enabled then tr
  else
    let tr := tr ++ [HandlerEv.requeue]
    if isPrivateOnly options && subscribers.isEmpty then tr
    else tr ++ [HandlerEv.dispatchSummarize]

/-- The hour window derived from `ratesPerDay` (latest revision lines
1889-1899; the earlier revisions use an equivalent map with default 6). -/
def ratesPerDayHours (ratesPerDay : Int) : Nat :=
  if ratesPerDay = 2 then 12
  else if ratesPerDay = 3 then 8
  else if ratesPerDay = 4 then 6
  else 6

/-- The condensed one-line summary carried to the delivery message.  Each
constructor records which branch of the condensation step produced it:

* `fromModel s`      - `strings.TrimSpace` of a successful non-empty
                       `GenSarcasticCondensed` result;
* `truncatedFirst s` - the fallback `s[:50] + "..."` (the code slices the
                       first 50 bytes of the first topic summary);
* `firstWhole s`     - the fallback using the whole first topic summary
                       (byte length at most 50);
* `placeholder h`    - `fmt.Sprintf("過去 %d 小時的群組聊天回顧", h)`. -/
inductive CondensedSummary where
  | fromModel (text : String)
  | truncatedFirst (first : String)
  | firstWhole (first : String)
  | placeholder (hours : Nat)
  deriving DecidableEq, Repr

/-- The fallback of the condensation step (latest revision lines 1996-2005):
the first topic summary, truncated to 50 bytes with an ellipsis when longer,
or the templated placeholder naming the time window when no summaries
exist. -/
def condenseFallback (summarizations : List String) (hours : Nat) : CondensedSummary :=
  match summarizations with
  | [] => .placeholder hours
  | first :: _ =>
    if 50 < first.utf8ByteSize then .truncatedFirst first
    else .firstWhole first

/-- Go `strings.TrimSpace`: strip leading and trailing whitespace
characters (defined structurally over the character list so that it
evaluates). -/
def trimSpace (s : String) : String :=
  ⟨((s.data.dropWhile Char.isWhitespace).reverse.dropWhile Char.isWhitespace).reverse⟩

/-- The condensation step of the latest autorecap revision (lines 1989-2008):
`GenSarcasticCondensed` is called; if it errors OR its trimmed result is
empty, the fallback is used; otherwise the trimmed result is kept.  Go trims
with `strings.TrimSpace`, modelled by `trimSpace`.  The step has no error
outcome: condensation failure never aborts the run. -/
def condenseStep (genResult : Except Unit String) (summarizations : List String)
    (hours : Nat) : CondensedSummary :=
  match genResult with
  | .error _ => condenseFallback summarizations hours
  | .ok s =>
    if trimSpace s = "" then condenseFallback summarizations hours
    else .fromModel (trimSpace s)

/-- The condensation step of the FIRST autorecap revision (command_common.go
lines 773-793): the fallback is taken only when `GenSarcasticCondensed`
returns an error; a successful but empty result is trimmed and used as-is.
The per-batch fallback inspects the current batch `b`. -/
def condenseStepV1 (genResult : Except Unit String) (batch : List String)
    (hours : Nat) : CondensedSummary :=
  match genResult with
  | .error _ => condenseFallback batch hours
  | .ok s => .fromModel (trimSpace s)

/-- True for the three fallback shapes of `CondensedSummary`. -/
def CondensedSummary.isFallback : CondensedSummary → Bool
  | .fromModel _ => false
  | _ => true

/-- A delivery-record row of the chathistories store for pin bookkeeping:
the chat the message was sent to, its message id, and whether the row is
currently marked pinned. -/
structure PinnedRecord where
  chatID : Int
  messageID : Nat
  pinned : Bool
  deriving DecidableEq, Repr

/-- The pinned-message record store, in insertion order. -/
abbrev PinStore := List PinnedRecord

/-- The rows of `st` that chat `chatID` currently has marked pinned. -/
def pinnedFor (st : PinStore) (chatID : Int) : List PinnedRecord :=
  st.filter fun r => r.chatID == chatID && r.pinned

/-- Modelled from the spec: `chathistories.FindLastTelegramPinnedMessage`
(the chathistories model is not under src/).  Per the spec's
`PinnedMessageRecord` contract it returns the chat's most recent record
marked pinned; the lookup fails (`PinLookupFailure` in the spec's error
taxonomy, or no such record) with an error. -/
def FindLastTelegramPinnedMessage (st : PinStore) (chatID : Int)
    (lookupFails : Bool) : Except Unit PinnedRecord :=
  if lookupFails then .error ()
  else
    match (pinnedFor st chatID).getLast? with
    | some r => .ok r
    | none => .error ()

/-- Modelled from the spec: `chathistories.UpdatePinnedMessage st chatID
messageID pinned` updates the pinned mark of the record(s) identified by
`(chatID, messageID)`. -/
def UpdatePinnedMessage (st : PinStore) (chatID : Int) (messageID : Nat)
    (pinned : Bool) : PinStore :=
  st.map fun r =>
    if r.chatID == chatID && r.messageID == messageID then
      { r with pinned := pinned }
    else r

/-- Modelled from the spec: `chathistories.SaveOneTelegramSentMessage`
persists a delivery record for the sent message, marked pinned or not. -/
def SaveOneTelegramSentMessage (st : PinStore) (chatID : Int) (messageID : Nat)
    (pinned : Bool) : PinStore :=
  st ++ [⟨chatID, messageID, pinned⟩]

/-- The spec's `PinnedMessageRecord` invariant: at most one record of the
chat is marked pinned. -/
abbrev atMostOnePinned (st : PinStore) (chatID : Int) : Prop :=
  (pinnedFor st chatID).length ≤ 1

/-- Observable actions of the summarize pipeline and its delivery loop. -/
inductive Ev where
  | createPageCall : Ev
  | limiterCreate (rate : Nat) : Ev
  | take : Ev
  | send (chatID : Int) (isPrivateSubscriber : Bool) : Ev
  | sendNotice (userID : Int) : Ev
  | unsubscribe (userID : Int) : Ev
  | pinStepFor (chatID : Int) (isPrivateSubscriber : Bool) : Ev
  | unpinAPI (messageID : Nat) : Ev
  | pinAPI (messageID : Nat) : Ev
  | setRecordUnpinned (messageID : Nat) : Ev
  | saveRecord (messageID : Nat) (pinned : Bool) : Ev
  | nilDeref : Ev
  deriving DecidableEq, Repr

/-- True exactly for delivery-send events. -/
def isSendEv : Ev → Bool
  | .send _ _ => true
  | _ => false

/-- True exactly for limiter `Take` events. -/
def isTakeEv : Ev → Bool
  | .take => true
  | _ => false

/-- Number of delivery sends in a trace. -/
def sendEvCount (l : List Ev) : Nat := (l.filter isSendEv).length

/-- Number of limiter takes in a trace. -/
def takeEvCount (l : List Ev) : Nat := (l.filter isTakeEv).length

/-- The token-bucket discipline on a trace: in every prefix, the number of
delivery sends never exceeds the number of limiter takes - i.e. every send
went through the limiter first. -/
def limiterDominates (l : List Ev) : Prop :=
  ∀ n, sendEvCount (l.take n) ≤ takeEvCount (l.take n)

/-- The pin block of the latest revision's delivery loop (command_common.go
lines 2179-2211), entered after a recap message `sentMsgID` was sent:
the chat's last pinned record is looked up; if the lookup succeeds the old
message is unpinned via the bot API and its record updated to non-pinned,
OTHERWISE both steps are skipped; in either case the new message is then
pinned and recorded as pinned.  Store writes are modelled as succeeding
(`may.Invoke` only logs their errors). -/
def pinStepLatest (st : PinStore) (chatID : Int) (sentMsgID : Nat)
    (lookupFails : Bool) : PinStore × List Ev :=
  match FindLastTelegramPinnedMessage st chatID lookupFails with
  | .error _ =>
    (SaveOneTelegramSentMessage st chatID sentMsgID true,
     [Ev.pinAPI sentMsgID, Ev.saveRecord sentMsgID true])
  | .ok last =>
    (SaveOneTelegramSentMessage
       (UpdatePinnedMessage st last.chatID last.messageID false)
       chatID sentMsgID true,
     [Ev.unpinAPI last.messageID, Ev.setRecordUnpinned last.messageID,
      Ev.pinAPI sentMsgID, Ev.saveRecord sentMsgID true])

/-- The pin block of the FIRST revision's delivery loop (command_common.go
lines 971-984): the lookup result is used WITHOUT an else-guard, so on a
lookup error the Go code dereferences the nil record (a runtime panic),
modelled by the `nilDeref` event; on success the block unpins the old
message, updates its record, pins the new message and records it. -/
def pinStepV1 (st : PinStore) (chatID : Int) (sentMsgID : Nat)
    (lookupFails : Bool) : PinStore × List Ev :=
  match FindLastTelegramPinnedMessage st chatID lookupFails with
  | .error _ => (st, [Ev.nilDeref])
  | .ok last =>
    (SaveOneTelegramSentMessage
       (UpdatePinnedMessage st last.chatID last.messageID false)
       chatID sentMsgID true,
     [Ev.unpinAPI last.messageID, Ev.setRecordUnpinned last.messageID,
      Ev.pinAPI sentMsgID, Ev.saveRecord sentMsgID true])

/-- A resolved delivery target: the group broadcast itself or one private
subscriber (the anonymous struct `targetChat` of command_common.go). -/
structure TargetChat where
  chatID : Int
  isPrivateSubscriber : Bool
  deriving DecidableEq, Repr

/-- External collaborators consulted while resolving targets in the first
revision: the Telegram membership query for a subscriber, and how many
`UnsubscribeToAutoRecaps` attempts fail before one succeeds. -/
structure DeliverEnvV1 where
  getMember : Subscriber → Except Unit MemberStatus
  unsubFailures : Subscriber → Nat

/-- One subscriber of the first revision's revalidation loop
(command_common.go lines 694-766): a failed membership query skips the
subscriber entirely; an allowed status adds a private target; a disallowed
status triggers `lo.AttemptWithDelay(1000, time.Minute, unsubscribe)`
(modelled by a single `unsubscribe` event when some of the 1000 attempts
succeeds) followed by one auto-removal notice message. -/
def resolveTargetsStepV1 (env : DeliverEnvV1)
    (acc : List TargetChat × List Ev) (sub : Subscriber) :
    List TargetChat × List Ev :=
  match env.getMember sub with
  | .error _ => acc
  | .ok st =>
    if allowedMemberStatus st then
      (acc.1 ++ [⟨sub.userID, true⟩], acc.2)
    else
      let unsubEv := if env.unsubFailures sub < 1000 then [Ev.unsubscribe sub.userID] else []
      (acc.1, acc.2 ++ unsubEv ++ [Ev.sendNotice sub.userID])

/-- Target resolution of the FIRST revision (command_common.go lines
685-766): the group itself is a target when options are absent or the send
mode is `Publicly`; every subscriber passing membership revalidation is
added as a private target. -/
def resolveTargetsV1 (chatID : Int) (options : Option RecapOptions)
    (subscribers : List Subscriber) (env : DeliverEnvV1) :
    List TargetChat × List Ev :=
  let base := if (match options with
      | none => true
      | some o => o.autoRecapSendMode == .publicly : Bool) then
      [TargetChat.mk chatID false]
    else []
  subscribers.foldl (resolveTargetsStepV1 env) (base, [])

/-- Specification view of one revalidation-loop iteration: the private
target contributed by subscriber `s` (used to characterise
`resolveTargetsV1` in the proofs below). -/
def targetOfSub (env : DeliverEnvV1) (s : Subscriber) : List TargetChat :=
  match env.getMember s with
  | .error _ => []
  | .ok st => if allowedMemberStatus st then [⟨s.userID, true⟩] else []

/-- Specification view of one revalidation-loop iteration: the
unsubscription/notice actions contributed by subscriber `s`. -/
def evsOfSub (env : DeliverEnvV1) (s : Subscriber) : List Ev :=
  match env.getMember s with
  | .error _ => []
  | .ok st =>
    if allowedMemberStatus st then []
    else
      (if env.unsubFailures s < 1000 then [Ev.unsubscribe s.userID] else [])
        ++ [Ev.sendNotice s.userID]

/-- Target resolution of the LATEST revision (command_common.go lines
2092-2107): the group is a target in `Publicly` mode, and EVERY subscriber
is added as a private target - this revision performs no membership query
and no auto-unsubscription. -/
def resolveTargetsLatest (chatID : Int) (options : RecapOptions)
    (subscribers : List Subscriber) : List TargetChat :=
  let base := if options.autoRecapSendMode == .publicly then
      [TargetChat.mk chatID false]
    else []
  base ++ subscribers.map fun s => ⟨s.userID, true⟩

/-- External collaborators consulted inside the delivery loop:
`sendResult t` is the message id assigned by a successful `Send` to target
`t` (or an error); `privMarkup t` is the outcome of building the
vote-plus-unsubscribe keyboard for a private target; `lookupFails` is the
outcome of the pinned-record lookup. -/
structure DeliverEnv where
  sendResult : TargetChat → Except Unit Nat
  privMarkup : TargetChat → Except Unit Unit
  lookupFails : Bool

/-- One target of the LATEST revision's delivery loop (command_common.go
lines 2110-2220): the shared-per-run limiter is taken, the message is built
(for a private target the unsubscribe keyboard is built first; on failure
the target is skipped), the message is sent (on failure the target is
skipped), and then either the pin block runs (pinning enabled AND the target
is not a private subscriber) or a non-pinned delivery record is saved. -/
def deliverStepLatest (options : RecapOptions) (chatID : Int) (env : DeliverEnv)
    (acc : PinStore × List Ev) (tgt : TargetChat) : PinStore × List Ev :=
  let acc1 := (acc.1, acc.2 ++ [Ev.take])
  if tgt.isPrivateSubscriber && isErr (env.privMarkup tgt) then acc1
  else
    match env.sendResult tgt with
    | .error _ => acc1
    | .ok msgID =>
      if options.pinAutoRecapMessage && !tgt.isPrivateSubscriber then
        let r := pinStepLatest acc1.1 chatID msgID env.lookupFails
        (r.1, acc1.2 ++ [Ev.send tgt.chatID tgt.isPrivateSubscriber,
                         Ev.pinStepFor tgt.chatID tgt.isPrivateSubscriber] ++ r.2)
      else
        (SaveOneTelegramSentMessage acc1.1 tgt.chatID msgID false,
         acc1.2 ++ [Ev.send tgt.chatID tgt.isPrivateSubscriber,
                    Ev.saveRecord msgID false])

/-- The LATEST revision's delivery section (command_common.go lines
2091-2220): `limiter := ratelimit.New(5)` is created inside the run, then
every resolved target is processed in order. -/
def deliverLatest (options : RecapOptions) (chatID : Int)
    (targets : List TargetChat) (env : DeliverEnv) (st : PinStore) :
    PinStore × List Ev :=
  targets.foldl (deliverStepLatest options chatID env) (st, [Ev.limiterCreate 5])

/-- One target of one batch of the FIRST revision's delivery loop
(command_common.go lines 897-984): the limiter is taken, private targets
build the unsubscribe keyboard (skipped on failure), the message is sent
(a send FAILURE is only logged; the zero-value message id 0 is then used),
and the pin block runs for EVERY target of batch 0 when pinning is enabled -
the target's privacy is not consulted; all other sends get a non-pinned
record. -/
def deliverStepV1 (options : RecapOptions) (chatID : Int) (batchIdx : Nat)
    (env : DeliverEnv) (acc : PinStore × List Ev) (tgt : TargetChat) :
    PinStore × List Ev :=
  let acc1 := (acc.1, acc.2 ++ [Ev.take])
  if tgt.isPrivateSubscriber && isErr (env.privMarkup tgt) then acc1
  else
    let msgID := match env.sendResult tgt with
      | .ok n => n
      | .error _ => 0
    if batchIdx ≠ 0 || !options.pinAutoRecapMessage then
      (SaveOneTelegramSentMessage acc1.1 tgt.chatID msgID false,
       acc1.2 ++ [Ev.send tgt.chatID tgt.isPrivateSubscriber,
                  Ev.saveRecord msgID false])
    else
      let r := pinStepV1 acc1.1 chatID msgID env.lookupFails
      (r.1, acc1.2 ++ [Ev.send tgt.chatID tgt.isPrivateSubscriber,
                       Ev.pinStepFor tgt.chatID tgt.isPrivateSubscriber] ++ r.2)

/-- The FIRST revision's delivery section (command_common.go lines 768-985):
one limiter per run, then for every summarization batch every target is
processed.  Batch contents only feed message text and are elided. -/
def deliverV1 (options : RecapOptions) (chatID : Int) (batchCount : Nat)
    (targets : List TargetChat) (env : DeliverEnv) (st : PinStore) :
    PinStore × List Ev :=
  (List.range batchCount).foldl
    (fun acc i => targets.foldl (deliverStepV1 options chatID i env) acc)
    (st, [Ev.limiterCreate 5])

/-- Go `telegram.ChatType` values relevant to the pipeline. -/
inductive ChatType where
  | group : ChatType
  | supergroup : ChatType
  | privateChat : ChatType
  | channel : ChatType
  deriving DecidableEq, Repr

/-- External collaborators consulted by the latest revision's `summarize`
run, in pipeline order.  Chat-history payloads and the assembled HTML only
feed message text, so histories are elided to unit entries and the 60 KB
single-page/series branch is summarised by `htmlOverBudget`; the Telegraph
call result carries the page URLs. -/
structure RunEnv where
  getChatResult : Except Unit ChatType
  historiesResult : Except Unit (List Unit)
  summarizeResult : Except Unit (List String)
  countsResult : Except Unit Unit
  markupResult : Except Unit Unit
  condenseResult : Except Unit String
  htmlOverBudget : Bool
  telegraphResult : Except Unit (List String)
  deliver : DeliverEnv

/-- Go `summarize` of the LATEST autorecap revision (command_common.go lines
1866-2221).  Every failing stage aborts the run with no further effects;
fewer than 6 history messages skip the run before summarization; empty-
after-filtering summarizations skip the run; the condensation step never
aborts; the Telegraph page creation is attempted (`createPageCall`) and its
failure, or an empty first URL, aborts the run before delivery; otherwise
the resolved targets are delivered to. -/
def summarizeLatest (chatID : Int) (options : RecapOptions)
    (subscribers : List Subscriber) (env : RunEnv) (st : PinStore) :
    PinStore × List Ev :=
  match env.getChatResult with
  | .error _ => (st, [])
  | .ok _ =>
    match env.historiesResult with
    | .error _ => (st, [])
    | .ok histories =>
      if histories.length ≤ 5 then (st, [])
      else
        match env.summarizeResult with
        | .error _ => (st, [])
        | .ok summarizations0 =>
          match env.countsResult with
          | .error _ => (st, [])
          | .ok _ =>
            match env.markupResult with
            | .error _ => (st, [])
            | .ok _ =>
              let summarizations := summarizations0.filter fun s => s ≠ ""
              if summarizations.isEmpty then (st, [])
              else
                let hours := ratesPerDayHours options.autoRecapRatesPerDay
                let _condensed := condenseStep env.condenseResult summarizations hours
                match env.telegraphResult with
                | .error _ => (st, [Ev.createPageCall])
                | .ok urls =>
                  if urls.headD "" = "" then (st, [Ev.createPageCall])
                  else
                    let targets := resolveTargetsLatest chatID options subscribers
                    let r := deliverLatest options chatID targets env.deliver st
                    (r.1, [Ev.createPageCall] ++ r.2)

/-- Outcome of the manual-recap callback handler: an error response sent
back to the user, or a normal completion. -/
inductive CbOutcome where
  | errorResponse : CbOutcome
  | completed : CbOutcome
  deriving DecidableEq, Repr

/-- External collaborators of the manual-recap callback path. -/
structure CallbackEnv where
  historiesResult : Except Unit (List Unit)
  summarizeResult : Except Unit (List String)
  countsResult : Except Unit Unit
  markupResult : Except Unit Unit
  condenseResult : Except Unit String
  telegraphResult : Except Unit (List String)
  sendResult : Except Unit Nat

/-- Go `handleCallbackQuerySelectHours` (callback_query.go lines 648-905),
reduced to the stages relevant to history gating and publishing: the
histories for the selected window are read; 5 or fewer messages yield an
error response BEFORE any summarization, page creation or sending; then
summarization, filtering, counts and markup each abort on failure; the
Telegraph page is created (`createPageCall`; failure or an empty URL list
aborts); the condensation step (with its keyword-based fallback) never
aborts; finally the recap link message is sent (a send failure is only
logged).  The progress-message edit and deletion are elided. -/
def handleCallbackQuerySelectHours (chatID : Int) (env : CallbackEnv) :
    CbOutcome × List Ev :=
  match env.historiesResult with
  | .error _ => (.errorResponse, [])
  | .ok histories =>
    if histories.length ≤ 5 then (.errorResponse, [])
    else
      match env.summarizeResult with
      | .error _ => (.errorResponse, [])
      | .ok summarizations0 =>
        let summarizations := summarizations0.filter fun s => s ≠ ""
        if summarizations.isEmpty then (.errorResponse, [])
        else
          match env.countsResult with
          | .error _ => (.errorResponse, [])
          | .ok _ =>
            match env.markupResult with
            | .error _ => (.errorResponse, [])
            | .ok _ =>
              match env.telegraphResult with
              | .error _ => (.errorResponse, [Ev.createPageCall])
              | .ok urls =>
                if urls.isEmpty then (.errorResponse, [Ev.createPageCall])
                else
                  (.completed, [Ev.createPageCall, Ev.send chatID false])

end AutoRecap

namespace Telegraph

theorem pageParas_append (a b : Page) : pageParas (a ++ b) = pageParas a ++ pageParas b := by
  simp [pageParas, List.filterMap_append]

theorem pageSize_append (ts : Nat) (a b : Page) :
    pageSize ts (a ++ b) = pageSize ts a + pageSize ts b := by
  simp [pageSize, List.map_append, List.sum_append]

/-- The splitting fold distributes one paragraph into exactly one page, in
order: the paragraphs of the accumulated pages plus those of the page under
construction are the already-consumed paragraphs. -/
theorem splitFold_join (ts : Nat) (l : List Para) (parts : List Page) (cur : Page) :
    ((l.foldl (splitStep ts) (parts, cur)).1.map pageParas).flatten
      ++ pageParas (l.foldl (splitStep ts) (parts, cur)).2
    = (parts.map pageParas).flatten ++ pageParas cur ++ l := by
  induction l generalizing parts cur with
  | nil => simp
  | cons p l ih =>
    simp only [List.foldl_cons, splitStep]
    split
    · rw [ih]
      simp [pageParas_append, pageParas]
    · rw [ih]
      simp [pageParas_append, pageParas]

/-- Size invariant of the splitting fold: provided every remaining paragraph
fits on a freshly opened continuation page, the page under construction stays
under the 63 KB threshold and every closed page stays under threshold plus
the mid-series footer. -/
theorem splitFold_size (ts : Nat) (l : List Para) (parts : List Page) (cur : Page)
    (hcur : pageSize ts cur < 63 * 1024)
    (hparts : ∀ pg ∈ parts, pageSize ts pg < 63 * 1024 + footerMidSize)
    (hp : ∀ p ∈ l, ∀ k, k ≤ parts.length + l.length + 1 →
        34 + ts + decimalDigits k + contNoteSize + p.size < 63 * 1024) :
    (∀ pg ∈ (l.foldl (splitStep ts) (parts, cur)).1,
        pageSize ts pg < 63 * 1024 + footerMidSize)
    ∧ pageSize ts (l.foldl (splitStep ts) (parts, cur)).2 < 63 * 1024 := by
  induction l generalizing parts cur with
  | nil => exact ⟨hparts, hcur⟩
  | cons p l ih =>
    have hone : ∀ s : Seg, pageSize ts [s] = segSize ts s := by
      intro s
      simp [pageSize]
    simp only [List.foldl_cons, splitStep]
    split
    · refine ih _ _ ?_ ?_ ?_
      · have hk := hp p (List.mem_cons_self p l) ((parts ++ [cur ++ [Seg.footerMid]]).length + 1)
          (by simp only [List.length_append, List.length_cons, List.length_nil]; omega)
        simp only [pageSize, List.map_cons, List.map_nil, List.sum_cons, List.sum_nil, segSize]
        simp only [pageSize, List.map_cons, List.map_nil, List.sum_cons, List.sum_nil] at hk
        omega
      · intro pg hpg
        rcases List.mem_append.mp hpg with h | h
        · exact hparts pg h
        · rcases List.mem_singleton.mp h with rfl
          rw [pageSize_append, hone]
          simp only [segSize]
          omega
      · intro q hq k hk
        refine hp q (List.mem_cons_of_mem p hq) k ?_
        simp only [List.length_append, List.length_cons, List.length_nil] at hk ⊢
        omega
    · rename_i hlt
      refine ih _ _ ?_ hparts ?_
      · rw [pageSize_append, hone]
        simp only [segSize]
        omega
      · intro q hq k hk
        refine hp q (List.mem_cons_of_mem p hq) k ?_
        simp only [List.length_cons] at hk ⊢
        omega

/-- C5: for every HTML document whose size is at most the page budget (the
code's threshold: byte length under 64 KB), `SplitContentIntoParts` returns
exactly one page whose content is identical to the input document - no
header, footer or truncation is added (src/unnamed/part_003 lines 396-399;
the sibling revision src/unnamed/part_002 lines 514-534 gates on the
serialized size with the same identity behaviour). -/
theorem splitContentIntoParts_singlePageIdentity (ts : Nat) (paras : List Para)
    (hfits : docSize paras < 64 * 1024) :
    SplitContentIntoParts ts paras = [paras.map Seg.para] := by
  simp [SplitContentIntoParts, hfits]

/-- Witness for C5 at a concrete document. -/
theorem splitContentIntoParts_singlePageIdentity_witness :
    SplitContentIntoParts 4 [⟨"<p>hello</p>", 12⟩, ⟨"<p>bye</p>", 10⟩]
      = [[Seg.para ⟨"<p>hello</p>", 12⟩, Seg.para ⟨"<p>bye</p>", 10⟩]] :=
  splitContentIntoParts_singlePageIdentity 4 _ (by decide)

/-- C2 counterexample: the claim "every page returned by the content splitter
has serialized size at most the budget" fails as stated.  A document made of
one single 70000-byte paragraph exceeds the budget, and the splitter has no
fallback for a paragraph that alone exceeds the threshold: the paragraph is
placed on a continuation page whose size exceeds even the 64 KB platform
ceiling (src/unnamed/part_003 lines 410-429; the src/unnamed/part_002
revision moves the oversized paragraph to a fresh page in exactly the same
way). -/
theorem splitContentIntoParts_overBudgetPage :
    64 * 1024 ≤ docSize [⟨"P", 70000⟩]
    ∧ ∃ pg ∈ SplitContentIntoParts 4 [⟨"P", 70000⟩], 64 * 1024 < pageSize 4 pg :=
  ⟨by decide,
   ⟨[Seg.contTitle 2, Seg.contNote, Seg.para ⟨"P", 70000⟩, Seg.footerEnd],
    by decide, by decide⟩⟩

/-- C2 (amended): for every document exceeding the 64 KB budget, the pages
concatenate - ignoring the injected headers, continuation headers and
footers - to the original paragraph sequence in order, and no paragraph is
split across two pages; and PROVIDED each paragraph fits on a freshly opened
continuation page (paragraph size plus continuation-header size below the
63 KB close threshold), every returned page's size is at most 64 KB.  The
proviso is forced by the counterexample above: the code has no fallback for a
single paragraph exceeding the threshold. -/
theorem splitContentIntoParts_paginates (ts : Nat) (paras : List Para)
    (hbig : 64 * 1024 ≤ docSize paras) :
    ((SplitContentIntoParts ts paras).map pageParas).flatten = paras
    ∧ ((∀ p ∈ paras, ∀ k, k ≤ paras.length + 1 →
          34 + ts + decimalDigits k + contNoteSize + p.size < 63 * 1024) →
        ∀ pg ∈ SplitContentIntoParts ts paras, pageSize ts pg ≤ 64 * 1024) := by
  have hnotlt : ¬ docSize paras < 64 * 1024 := by omega
  have hjoin := splitFold_join ts paras [] [Seg.header]
  simp only [List.map_nil, List.flatten_nil, List.nil_append] at hjoin
  have hheader : pageParas [Seg.header] = [] := by decide
  rw [hheader, List.nil_append] at hjoin
  constructor
  · rw [SplitContentIntoParts, if_neg hnotlt]
    dsimp only
    split
    · rename_i hkeep
      rw [List.map_append, List.flatten_append]
      simp only [List.map_cons, List.map_nil, List.flatten_cons, List.flatten_nil]
      rw [pageParas_append]
      have hfe : pageParas [Seg.footerEnd] = [] := by decide
      rw [hfe, List.append_nil, List.append_nil]
      exact hjoin
    · rename_i hdrop
      have hcur : pageParas (paras.foldl (splitStep ts) ([], [Seg.header])).2 = [] := by
        rcases Decidable.not_and_iff_or_not.mp hdrop with h | h
        · have : (paras.foldl (splitStep ts) ([], [Seg.header])).2 = [] := by
            cases hc : (paras.foldl (splitStep ts) ([], [Seg.header])).2 with
            | nil => rfl
            | cons a t => rw [hc] at h; simp at h
          rw [this]; rfl
        · have := Decidable.not_not.mp h
          rw [this]; rfl
      rw [hcur, List.append_nil] at hjoin
      exact hjoin
  · intro hsmall
    have hsz := splitFold_size ts paras [] [Seg.header]
      (by simp [pageSize, segSize, headerSize])
      (by intro pg h; simp at h)
      (by
        intro p hp k hk
        refine hsmall p hp k ?_
        simpa using hk)
    intro pg hpg
    rw [SplitContentIntoParts, if_neg hnotlt] at hpg
    dsimp only at hpg
    have hfm : footerMidSize = 92 := rfl
    have hfe2 : pageSize ts [Seg.footerEnd] = 44 := by
      simp [pageSize, segSize, footerEndSize]
    split at hpg
    · rcases List.mem_append.mp hpg with h | h
      · have := hsz.1 pg h
        omega
      · rcases List.mem_singleton.mp h with rfl
        rw [pageSize_append, hfe2]
        have := hsz.2
        omega
    · have := hsz.1 pg hpg
      omega

/-- Witness for C2 (amended) at a concrete three-paragraph document. -/
theorem splitContentIntoParts_paginates_witness :
    ((SplitContentIntoParts 4 [⟨"a", 30000⟩, ⟨"b", 30000⟩, ⟨"c", 30000⟩]).map
        pageParas).flatten = [⟨"a", 30000⟩, ⟨"b", 30000⟩, ⟨"c", 30000⟩]
    ∧ ∀ pg ∈ SplitContentIntoParts 4 [⟨"a", 30000⟩, ⟨"b", 30000⟩, ⟨"c", 30000⟩],
        pageSize 4 pg ≤ 64 * 1024 :=
  ⟨(splitContentIntoParts_paginates 4 _ (by decide)).1,
   (splitContentIntoParts_paginates 4 _ (by decide)).2 (by decide)⟩

end Telegraph

namespace Telegraph.Client

/-- C10: every call to `CreatePage`, `EditPage`, `DeletePage` or
`CreatePageSeries` made while the Telegraph access token is unconfigured
(empty string) returns an error immediately, performs no retry attempt and
issues no API call (so no page is created or edited and state is unchanged). -/
theorem emptyAccessToken_noEffect (cfg : TelegraphCfg)
    (a b : Nat → Option String) (d : Nat → Bool)
    (ca ea : Nat → Nat → Option String)
    (title path : String) (ts : Nat) (paras : List Para)
    (h : cfg.accessToken = "") :
    CreatePage cfg a title
      = (.error "telegraph access token is not configured", [])
    ∧ EditPage cfg b path title
      = (.error "telegraph access token is not configured", [])
    ∧ DeletePage cfg d path
      = (.error "telegraph access token is not configured", [])
    ∧ CreatePageSeries cfg ca ea title ts paras
      = (.error "telegraph access token is not configured", []) := by
  refine ⟨?_, ?_, ?_, ?_⟩ <;>
    simp [CreatePage, EditPage, DeletePage, CreatePageSeries, h]

/-- Witness for C10 at the empty-token configuration. -/
theorem emptyAccessToken_noEffect_witness :
    CreatePage ⟨""⟩ (fun _ => none) "t"
      = (.error "telegraph access token is not configured", [])
    ∧ EditPage ⟨""⟩ (fun _ => none) "p" "t"
      = (.error "telegraph access token is not configured", [])
    ∧ DeletePage ⟨""⟩ (fun _ => false) "p"
      = (.error "telegraph access token is not configured", [])
    ∧ CreatePageSeries ⟨""⟩ (fun _ _ => none) (fun _ _ => none) "t" 1 []
      = (.error "telegraph access token is not configured", []) :=
  emptyAccessToken_noEffect ⟨""⟩ (fun _ => none) (fun _ => none) (fun _ => false)
    (fun _ _ => none) (fun _ _ => none) "t" "p" 1 [] rfl

end Telegraph.Client

namespace AutoRecap

/-- C1 counterexample: the claim "a new recap task is enqueued on every
firing before the handler returns, regardless of failures or the feature
being disabled" fails as stated.  When all three store reads succeed and the
recap feature is disabled, `sendChatHistoriesRecapTimeCapsuleHandler`
returns at the `if !enabled` guard (command_common.go lines 536-540/
1843-1847), which sits BEFORE the "always requeue" call (lines 542-546/
1849-1853), and `may.HandleErrors` has not requeued either because no read
errored: no requeue happens at all. -/
theorem handler_disabled_noRequeue :
    HandlerEv.requeue ∉
      sendChatHistoriesRecapTimeCapsuleHandler ⟨.ok false, .ok none, .ok []⟩ := by
  decide

/-- C1 (amended): the scheduler handler re-enqueues the chat's recap task
before returning if and only if some option/subscriber store read failed
(the error handler requeues) or the recap feature read back enabled (the
unconditional requeue below the guard); on the read-success-but-disabled
path the handler returns without rescheduling.  (Re-enabling the feature
re-queues the task from the configuration toggle handler,
callback_query.go lines 165-181.) -/
theorem handler_requeue_iff (r : HandlerReads) :
    HandlerEv.requeue ∈ sendChatHistoriesRecapTimeCapsuleHandler r
      ↔ ((isErr r.enabledRead || isErr r.optionsRead || isErr r.subscribersRead) = true
          ∨ r.enabledRead = .ok true) := by
  rcases r with ⟨e, o, s⟩
  rcases e with he | eb
  · simp [sendChatHistoriesRecapTimeCapsuleHandler, isErr]
  · rcases eb with _ | _
    · constructor
      · intro hmem
        rcases o with ho | ov <;> rcases s with hs | sv <;>
          simp [sendChatHistoriesRecapTimeCapsuleHandler, isErr] at hmem ⊢
      · intro hor
        rcases hor with hor | hok
        · rcases o with ho | ov <;> rcases s with hs | sv <;>
            simp [sendChatHistoriesRecapTimeCapsuleHandler, isErr] at hor ⊢
        · exact absurd hok (by simp)
    · constructor
      · intro _
        right
        rfl
      · intro _
        rcases o with ho | ov <;> rcases s with hs | sv <;>
          simp only [sendChatHistoriesRecapTimeCapsuleHandler, isErr,
            Bool.false_or, Bool.or_false, Bool.not_true, Bool.false_and] <;>
          (split <;> (first | (split <;> simp_all) | simp_all))

/-- C6 counterexample: the claim "if the condensed-summary call fails OR
returns an empty result, the pipeline proceeds with the fallback" fails on
the first autorecap revision (command_common.go lines 773-793): a successful
but empty `GenSarcasticCondensed` result is used as-is (the empty string),
not replaced by the fallback - that revision only falls back on an error. -/
theorem condenseStepV1_emptyResultNotFallback :
    condenseStepV1 (.ok "") ["topic summary"] 6 = .fromModel ""
    ∧ (CondensedSummary.fromModel "").isFallback = false := by
  constructor
  · rfl
  · rfl

/-- C6 (amended): in the LATEST autorecap revision (command_common.go lines
1989-2008) condensation failure is never fatal and the claimed fallback is
exact: the step has no error outcome; on a failed call, or on a successful
call whose trimmed result is empty, the result is the fallback - the first
topic summary truncated to the 50-byte budget with an ellipsis when longer,
used whole otherwise, or the templated placeholder naming the time window
when no summaries exist; a successful non-empty call yields its trimmed
text.  (The first revision falls back only on error; the manual-recap
callback additionally tries a keyword-based sentence before truncation.) -/
theorem condenseStep_neverFatal_fallback (sums : List String) (hours : Nat) :
    condenseStep (.error ()) sums hours = condenseFallback sums hours
    ∧ (∀ s, trimSpace s = "" → condenseStep (.ok s) sums hours = condenseFallback sums hours)
    ∧ (∀ s, trimSpace s ≠ "" → condenseStep (.ok s) sums hours = .fromModel (trimSpace s))
    ∧ condenseFallback [] hours = .placeholder hours
    ∧ (∀ first rest, 50 < first.utf8ByteSize →
        condenseFallback (first :: rest) hours = .truncatedFirst first)
    ∧ (∀ first rest, first.utf8ByteSize ≤ 50 →
        condenseFallback (first :: rest) hours = .firstWhole first) := by
  refine ⟨rfl, ?_, ?_, rfl, ?_, ?_⟩
  · intro s hs
    simp [condenseStep, hs]
  · intro s hs
    simp [condenseStep, hs]
  · intro first rest hlen
    simp [condenseFallback, hlen]
  · intro first rest hlen
    simp [condenseFallback, Nat.not_lt.mpr hlen]

/-- Witness for C6 (amended) at concrete inputs: a whitespace-only result
falls back, a non-empty result is kept trimmed. -/
theorem condenseStep_neverFatal_fallback_witness :
    condenseStep (.ok " ") ["t"] 6 = condenseFallback ["t"] 6
    ∧ condenseStep (.error ()) [] 12 = condenseFallback [] 12
    ∧ condenseFallback [] 12 = .placeholder 12 :=
  ⟨(condenseStep_neverFatal_fallback ["t"] 6).2.1 " " (by decide),
   (condenseStep_neverFatal_fallback [] 12).1,
   (condenseStep_neverFatal_fallback [] 12).2.2.2.1⟩

theorem pinnedFor_append (a b : PinStore) (c : Int) :
    pinnedFor (a ++ b) c = pinnedFor a c ++ pinnedFor b c := by
  simp [pinnedFor, List.filter_append]

/-- Updating the record keyed `(c, mid)` to non-pinned removes exactly the
records with that message id from the chat's pinned set. -/
theorem pinnedFor_update_filter (st : PinStore) (c : Int) (mid : Nat) :
    pinnedFor (UpdatePinnedMessage st c mid false) c
      = (pinnedFor st c).filter fun r => !(r.messageID == mid) := by
  induction st with
  | nil => rfl
  | cons r st ih =>
    simp only [UpdatePinnedMessage, List.map_cons] at ih ⊢
    by_cases h1 : (r.chatID == c && r.messageID == mid) = true
    · have hc : (r.chatID == c) = true := ((Bool.and_eq_true _ _).mp h1).1
      have hm : (r.messageID == mid) = true := ((Bool.and_eq_true _ _).mp h1).2
      by_cases hp : r.pinned
      · simp [pinnedFor, List.filter_cons, h1, hc, hm, hp] at ih ⊢
        exact ih
      · simp [pinnedFor, List.filter_cons, h1, hc, hm, hp] at ih ⊢
        exact ih
    · by_cases hq : (r.chatID == c && r.pinned) = true
      · have hm : (r.messageID == mid) = false := by
          have hc := ((Bool.and_eq_true _ _).mp hq).1
          cases hmm : r.messageID == mid with
          | false => rfl
          | true => exact absurd (by simp [hc, hmm]) h1
        simp [pinnedFor, List.filter_cons, h1, hq, hm] at ih ⊢
        exact ih
      · simp [pinnedFor, List.filter_cons, h1, hq] at ih ⊢
        exact ih

/-- C4 counterexample: the claim "at most one pinned record per chat at any
time; a new message is pinned only after the previous one is unpinned" fails
as stated.  When the pinned-record lookup fails, the latest revision's pin
block (command_common.go lines 2179-2211) skips the unpin-and-update step
but STILL pins the new message and records it as pinned: starting from a
store whose chat 1 already has message 100 pinned, the store ends with two
records marked pinned. -/
theorem pinStepLatest_lookupFailure_twoPinned :
    ¬ atMostOnePinned (pinStepLatest [⟨1, 100, true⟩] 1 200 true).1 1 := by
  decide

/-- C4 (amended): provided the pinned-record lookup succeeds (store writes
are modelled as succeeding, their errors being only logged), the pin step
preserves the at-most-one-pinned invariant - the previously pinned record is
updated to non-pinned before the new record is saved as pinned - and the
emitted actions unpin the old message BEFORE pinning the new one; when the
lookup errors out (including the first pin, when no pinned record exists)
the new message is pinned without any unpin, which is what breaks the claim
in the counterexample above. -/
theorem pinStepLatest_invariant (st : PinStore) (c : Int) (m : Nat)
    (h : atMostOnePinned st c) :
    atMostOnePinned (pinStepLatest st c m false).1 c
    ∧ ∀ last, FindLastTelegramPinnedMessage st c false = .ok last →
        (pinStepLatest st c m false).2
          = [Ev.unpinAPI last.messageID, Ev.setRecordUnpinned last.messageID,
             Ev.pinAPI m, Ev.saveRecord m true] := by
  cases hf : FindLastTelegramPinnedMessage st c false with
  | error e =>
    have hempty : pinnedFor st c = [] := by
      unfold FindLastTelegramPinnedMessage at hf
      simp only [Bool.false_eq_true, if_false] at hf
      cases hg : (pinnedFor st c).getLast? with
      | some r => rw [hg] at hf; exact absurd hf (by simp)
      | none => exact List.getLast?_eq_none_iff.mp hg
    constructor
    · unfold pinStepLatest
      rw [hf]
      unfold SaveOneTelegramSentMessage
      show (pinnedFor _ _).length ≤ 1
      rw [pinnedFor_append, hempty]
      simp [pinnedFor]
    · intro last hlast
      exact absurd hlast (by simp)
  | ok last0 =>
    have hg : (pinnedFor st c).getLast? = some last0 := by
      unfold FindLastTelegramPinnedMessage at hf
      simp only [Bool.false_eq_true, if_false] at hf
      cases hg : (pinnedFor st c).getLast? with
      | some r => rw [hg] at hf; simpa using hf
      | none => rw [hg] at hf; exact absurd hf (by simp)
    have hsingle : pinnedFor st c = [last0] := by
      cases hl : pinnedFor st c with
      | nil => rw [hl] at hg; exact absurd hg (by simp)
      | cons a t =>
        cases t with
        | nil =>
          rw [hl] at hg
          simp only [List.getLast?_singleton, Option.some.injEq] at hg
          rw [hg]
        | cons b t2 =>
          have h2 := h
          unfold atMostOnePinned at h2
          rw [hl] at h2
          simp at h2
    have hmem : (last0.chatID == c && last0.pinned) = true := by
      have hx : last0 ∈ List.filter (fun r => r.chatID == c && r.pinned) st := by
        have hy : last0 ∈ pinnedFor st c := by
          rw [hsingle]
          exact List.mem_singleton_self last0
        simpa [pinnedFor] using hy
      exact (List.mem_filter.mp hx).2
    have hcid : last0.chatID = c := eq_of_beq ((Bool.and_eq_true _ _).mp hmem).1
    constructor
    · unfold pinStepLatest
      rw [hf]
      unfold SaveOneTelegramSentMessage
      show (pinnedFor _ _).length ≤ 1
      rw [pinnedFor_append, hcid, pinnedFor_update_filter, hsingle]
      simp [pinnedFor]
    · intro last hlast
      have heq : last0 = last := by simpa using hlast
      subst heq
      unfold pinStepLatest
      rw [hf]

/-- Witness for C4 (amended): a successful pin transition on a store with
one pinned record keeps exactly one pinned record and unpins before pinning. -/
theorem pinStepLatest_invariant_witness :
    atMostOnePinned (pinStepLatest [⟨1, 100, true⟩, ⟨1, 50, false⟩] 1 200 false).1 1
    ∧ (pinStepLatest [⟨1, 100, true⟩, ⟨1, 50, false⟩] 1 200 false).2
        = [Ev.unpinAPI 100, Ev.setRecordUnpinned 100, Ev.pinAPI 200,
           Ev.saveRecord 200 true] :=
  ⟨(pinStepLatest_invariant [⟨1, 100, true⟩, ⟨1, 50, false⟩] 1 200 (by decide)).1,
   (pinStepLatest_invariant [⟨1, 100, true⟩, ⟨1, 50, false⟩] 1 200 (by decide)).2
     ⟨1, 100, true⟩ rfl⟩

theorem resolveFoldV1_spec (env : DeliverEnvV1) (subs : List Subscriber)
    (acc : List TargetChat × List Ev) :
    subs.foldl (resolveTargetsStepV1 env) acc
      = (acc.1 ++ subs.flatMap (targetOfSub env), acc.2 ++ subs.flatMap (evsOfSub env)) := by
  induction subs generalizing acc with
  | nil => simp
  | cons s subs ih =>
    simp only [List.foldl_cons, List.flatMap_cons]
    rw [ih]
    unfold resolveTargetsStepV1 targetOfSub evsOfSub
    cases env.getMember s with
    | error e => simp
    | ok stv =>
      by_cases ha : allowedMemberStatus stv
      · simp [ha]
      · simp [ha]

/-- Helper: the sum of a function over a duplicate-free list containing `x`,
when the function vanishes on every other element, is the value at `x`. -/
theorem sum_map_eq_single {β : Type} (l : List β) (g : β → Nat) (x : β)
    (hx : x ∈ l) (hnd : l.Nodup) (hz : ∀ y ∈ l, y ≠ x → g y = 0) :
    (l.map g).sum = g x := by
  induction l with
  | nil => cases hx
  | cons y ys ih =>
    rcases List.mem_cons.mp hx with rfl | hx2
    · have hzs : ∀ z ∈ ys, g z = 0 := by
        intro z hz2
        refine hz z (List.mem_cons_of_mem _ hz2) ?_
        rintro rfl
        exact (List.nodup_cons.mp hnd).1 hz2
      have : (ys.map g).sum = 0 := by
        apply List.sum_eq_zero
        intro n hn
        rcases List.mem_map.mp hn with ⟨z, hz2, rfl⟩
        exact hzs z hz2
      simp [this]
    · have hy0 : g y = 0 := by
        refine hz y (List.mem_cons_self _ _) ?_
        rintro rfl
        exact (List.nodup_cons.mp hnd).1 hx2
      have := ih hx2 (List.nodup_cons.mp hnd).2
        (fun z hz2 hne => hz z (List.mem_cons_of_mem _ hz2) hne)
      simp [hy0, this]

/-- C3 counterexample: the claim "a subscriber whose membership status query
returns a disallowed status is included in zero delivery targets, removed
from the subscriber store, and sent a removal notice" fails on the LATEST
revision (command_common.go lines 2102-2107): its target resolution performs
NO membership query at all and adds every subscriber as a private delivery
target - here a subscriber whose membership query would return the
disallowed status `left` is nonetheless a target (the first revision's loop,
by contrast, excludes them). -/
theorem latestRevision_includesRevokedSubscriber :
    allowedMemberStatus MemberStatus.left = false
    ∧ TargetChat.mk 42 true ∈
        resolveTargetsLatest 1 ⟨.publicly, 4, false⟩ [⟨42⟩]
    ∧ TargetChat.mk 42 true ∉
        (resolveTargetsV1 1 (some ⟨.publicly, 4, false⟩) [⟨42⟩]
          ⟨fun _ => .ok .left, fun _ => 0⟩).1 := by
  refine ⟨rfl, ?_, ?_⟩
  · decide
  · decide

/-- C3 (amended): in the FIRST revision's revalidation loop
(command_common.go lines 694-766) the claim holds: a subscriber (with a
duplicate-free subscriber list) whose membership query returns a status
outside {Creator, Administrator, Member, Restricted} is included in zero
delivery targets; it is removed from the subscriber store exactly once
provided some of the 1000 spaced `UnsubscribeToAutoRecaps` attempts
succeeds; and exactly one auto-removal notice send is issued to it.  The
LATEST revision drops this loop entirely, as the counterexample above shows. -/
theorem subscriberRevalidationV1 (chatID : Int) (options : Option RecapOptions)
    (subs : List Subscriber) (env : DeliverEnvV1) (sub : Subscriber)
    (stv : MemberStatus)
    (hmem : sub ∈ subs)
    (hnodup : (subs.map Subscriber.userID).Nodup)
    (hst : env.getMember sub = .ok stv)
    (hbad : allowedMemberStatus stv = false) :
    TargetChat.mk sub.userID true ∉ (resolveTargetsV1 chatID options subs env).1
    ∧ (env.unsubFailures sub < 1000 →
        (resolveTargetsV1 chatID options subs env).2.count (Ev.unsubscribe sub.userID) = 1)
    ∧ (resolveTargetsV1 chatID options subs env).2.count (Ev.sendNotice sub.userID) = 1 := by
  have hinj : ∀ y ∈ subs, y.userID = sub.userID → y = sub := by
    intro y hy he
    exact List.inj_on_of_nodup_map hnodup hy hmem he
  have hnd : subs.Nodup := List.Nodup.of_map _ hnodup
  unfold resolveTargetsV1
  rw [resolveFoldV1_spec]
  refine ⟨?_, ?_, ?_⟩
  · intro hin
    rcases List.mem_append.mp hin with hb | ht
    · split at hb
      · have heq := List.mem_singleton.mp hb
        have hbool : (true : Bool) = false := congrArg TargetChat.isPrivateSubscriber heq
        cases hbool
      · cases hb
    · rcases List.mem_flatMap.mp ht with ⟨s, hs, hxs⟩
      unfold targetOfSub at hxs
      cases hgm : env.getMember s with
      | error e => rw [hgm] at hxs; cases hxs
      | ok stv2 =>
        rw [hgm] at hxs
        dsimp only at hxs
        by_cases ha : allowedMemberStatus stv2
        · rw [if_pos ha] at hxs
          have heq := List.mem_singleton.mp hxs
          have hsu : s.userID = sub.userID := (congrArg TargetChat.chatID heq).symm
          have hssub : s = sub := hinj s hs hsu
          subst hssub
          rw [hst] at hgm
          have hstv : stv = stv2 := by
            injection hgm
          subst hstv
          rw [ha] at hbad
          cases hbad
        · rw [if_neg ha] at hxs
          cases hxs
  · intro hlt
    have hz : ∀ y ∈ subs, y ≠ sub →
        (fun s => (evsOfSub env s).count (Ev.unsubscribe sub.userID)) y = 0 := by
      intro y hy hne
      have hyu : y.userID ≠ sub.userID := fun he => hne (hinj y hy he)
      unfold evsOfSub
      cases hgm : env.getMember y with
      | error e => simp [hgm]
      | ok stv2 =>
        by_cases ha : allowedMemberStatus stv2
        · simp [hgm, ha]
        · by_cases hf : env.unsubFailures y < 1000
          · simp [hgm, ha, hf, List.count_cons, hyu]
          · simp [hgm, ha, hf, List.count_cons, hyu]
    have hsum := sum_map_eq_single subs
      (fun s => (evsOfSub env s).count (Ev.unsubscribe sub.userID)) sub hmem hnd hz
    simp only [List.nil_append]
    rw [List.count_flatMap]
    simp only [Function.comp_def]
    rw [hsum]
    unfold evsOfSub
    simp [hst, hbad, hlt, List.count_cons]
  · have hz : ∀ y ∈ subs, y ≠ sub →
        (fun s => (evsOfSub env s).count (Ev.sendNotice sub.userID)) y = 0 := by
      intro y hy hne
      have hyu : y.userID ≠ sub.userID := fun he => hne (hinj y hy he)
      unfold evsOfSub
      cases hgm : env.getMember y with
      | error e => simp [hgm]
      | ok stv2 =>
        by_cases ha : allowedMemberStatus stv2
        · simp [hgm, ha]
        · by_cases hf : env.unsubFailures y < 1000
          · simp [hgm, ha, hf, List.count_cons, hyu]
          · simp [hgm, ha, hf, List.count_cons, hyu]
    have hsum := sum_map_eq_single subs
      (fun s => (evsOfSub env s).count (Ev.sendNotice sub.userID)) sub hmem hnd hz
    simp only [List.nil_append]
    rw [List.count_flatMap]
    simp only [Function.comp_def]
    rw [hsum]
    unfold evsOfSub
    by_cases hf : env.unsubFailures sub < 1000
    · simp [hst, hbad, hf, List.count_cons]
    · simp [hst, hbad, hf, List.count_cons]

/-- Witness for C3 (amended): two subscribers, one of whom the membership
query reports as having left; that one is excluded, unsubscribed once and
sent one notice. -/
theorem subscriberRevalidationV1_witness :
    TargetChat.mk (42 : Int) true ∉
      (resolveTargetsV1 1 none [⟨7⟩, ⟨42⟩]
        ⟨fun s => if s.userID == 42 then .ok .left else .ok .member, fun _ => 0⟩).1
    ∧ (resolveTargetsV1 1 none [⟨7⟩, ⟨42⟩]
        ⟨fun s => if s.userID == 42 then .ok .left else .ok .member, fun _ => 0⟩).2.count
          (Ev.unsubscribe 42) = 1
    ∧ (resolveTargetsV1 1 none [⟨7⟩, ⟨42⟩]
        ⟨fun s => if s.userID == 42 then .ok .left else .ok .member, fun _ => 0⟩).2.count
          (Ev.sendNotice 42) = 1 := by
  have h := subscriberRevalidationV1 1 none [⟨7⟩, ⟨42⟩]
    ⟨fun s => if s.userID == 42 then .ok .left else .ok .member, fun _ => 0⟩
    ⟨42⟩ .left (by decide) (by decide) rfl rfl
  exact ⟨h.1, h.2.1 (by decide), h.2.2⟩

theorem pinStepLatest_events_shape (st : PinStore) (c : Int) (m : Nat) (b : Bool)
    (ev : Ev) (h : ev ∈ (pinStepLatest st c m b).2) :
    (∃ k, ev = Ev.unpinAPI k) ∨ (∃ k, ev = Ev.setRecordUnpinned k)
      ∨ ev = Ev.pinAPI m ∨ ev = Ev.saveRecord m true := by
  unfold pinStepLatest at h
  rcases hfl : FindLastTelegramPinnedMessage st c b with e | last
  · rw [hfl] at h
    dsimp only at h
    rcases List.mem_cons.mp h with rfl | h2
    · exact Or.inr (Or.inr (Or.inl rfl))
    · rcases List.mem_singleton.mp h2 with rfl
      exact Or.inr (Or.inr (Or.inr rfl))
  · rw [hfl] at h
    dsimp only at h
    rcases List.mem_cons.mp h with rfl | h2
    · exact Or.inl ⟨last.messageID, rfl⟩
    · rcases List.mem_cons.mp h2 with rfl | h3
      · exact Or.inr (Or.inl ⟨last.messageID, rfl⟩)
      · rcases List.mem_cons.mp h3 with rfl | h4
        · exact Or.inr (Or.inr (Or.inl rfl))
        · rcases List.mem_singleton.mp h4 with rfl
          exact Or.inr (Or.inr (Or.inr rfl))

theorem deliverLatest_fold_mem (options : RecapOptions) (chatID : Int)
    (env : DeliverEnv) (P : Ev → Prop)
    (hstep : ∀ acc tgt ev, ev ∈ (deliverStepLatest options chatID env acc tgt).2 →
        ev ∈ acc.2 ∨ P ev)
    (targets : List TargetChat) :
    ∀ (acc : PinStore × List Ev) (ev : Ev),
      ev ∈ (targets.foldl (deliverStepLatest options chatID env) acc).2 →
      ev ∈ acc.2 ∨ P ev := by
  induction targets with
  | nil =>
    intro acc ev h
    exact Or.inl h
  | cons t ts ih =>
    intro acc ev h
    rcases ih _ ev h with h2 | h2
    · exact hstep acc t ev h2
    · exact Or.inr h2

/-- C8 counterexample: the claim "the pin step is executed only for the
group broadcast target, never for a private subscriber target" fails on the
FIRST revision's delivery loop (command_common.go lines 933-943): for the
first batch with pinning enabled, the pin block runs for EVERY target,
including private subscribers - here the run enters the pin step while
processing private subscriber 42. -/
theorem firstRevision_pinsPrivateTarget :
    Ev.pinStepFor 42 true ∈
      (deliverV1 ⟨.publicly, 4, true⟩ 1 1 [⟨1, false⟩, ⟨42, true⟩]
        ⟨fun _ => .ok 9, fun _ => .ok (), false⟩ [⟨1, 100, true⟩]).2 := by
  decide

/-- C8 (amended): in the LATEST revision's delivery loop (command_common.go
lines 2151-2152) the pin step is entered only when `pinEnabled` is true and
the target is not a private subscriber (this revision sends one aggregated
message per run, so the first-batch condition is trivial), and a record is
saved as pinned only in that pin step; the FIRST revision instead ran the
pin block for every first-batch target, private subscribers included, as the
counterexample above shows. -/
theorem deliverLatest_pinOnlyGroup (options : RecapOptions) (chatID : Int)
    (targets : List TargetChat) (env : DeliverEnv) (st : PinStore) :
    (∀ c p, Ev.pinStepFor c p ∈ (deliverLatest options chatID targets env st).2 →
        p = false ∧ options.pinAutoRecapMessage = true)
    ∧ (∀ m, Ev.saveRecord m true ∈ (deliverLatest options chatID targets env st).2 →
        options.pinAutoRecapMessage = true) := by
  have hstep : ∀ acc tgt ev, ev ∈ (deliverStepLatest options chatID env acc tgt).2 →
      ev ∈ acc.2 ∨ ((∀ c p, ev = Ev.pinStepFor c p → p = false ∧ options.pinAutoRecapMessage = true)
        ∧ (∀ m, ev = Ev.saveRecord m true → options.pinAutoRecapMessage = true)) := by
    intro acc tgt ev h
    unfold deliverStepLatest at h
    split at h
    · rcases List.mem_append.mp h with h2 | h2
      · exact Or.inl h2
      · rcases List.mem_singleton.mp h2 with rfl
        exact Or.inr ⟨(fun c p heq => nomatch heq), (fun m heq => nomatch heq)⟩
    · rcases hsr : env.sendResult tgt with e | msgID <;> rw [hsr] at h <;> dsimp only at h
      · rcases List.mem_append.mp h with h2 | h2
        · exact Or.inl h2
        · rcases List.mem_singleton.mp h2 with rfl
          exact Or.inr ⟨(fun c p heq => nomatch heq), (fun m heq => nomatch heq)⟩
      · by_cases hg : (options.pinAutoRecapMessage && !tgt.isPrivateSubscriber) = true
        · rw [if_pos hg] at h
          have hpin : options.pinAutoRecapMessage = true := ((Bool.and_eq_true _ _).mp hg).1
          have hpriv : tgt.isPrivateSubscriber = false := by
            have h4 := ((Bool.and_eq_true _ _).mp hg).2
            simpa using h4
          simp only [List.append_assoc, List.cons_append, List.nil_append] at h
          rcases List.mem_append.mp h with h2 | h2
          · exact Or.inl h2
          · rcases List.mem_cons.mp h2 with rfl | h3
            · exact Or.inr ⟨(fun c p heq => nomatch heq), (fun m heq => nomatch heq)⟩
            · rcases List.mem_cons.mp h3 with rfl | h4
              · exact Or.inr ⟨(fun c p heq => nomatch heq), (fun m heq => nomatch heq)⟩
              · rcases List.mem_cons.mp h4 with rfl | h5
                · refine Or.inr ⟨fun c p heq => ?_, (fun m heq => nomatch heq)⟩
                  cases heq
                  exact ⟨hpriv, hpin⟩
                · rcases pinStepLatest_events_shape _ _ _ _ ev h5 with ⟨k, rfl⟩ | ⟨k, rfl⟩ | rfl | rfl
                  · exact Or.inr ⟨(fun c p heq => nomatch heq), (fun m heq => nomatch heq)⟩
                  · exact Or.inr ⟨(fun c p heq => nomatch heq), (fun m heq => nomatch heq)⟩
                  · exact Or.inr ⟨(fun c p heq => nomatch heq), (fun m heq => nomatch heq)⟩
                  · exact Or.inr ⟨(fun c p heq => nomatch heq), (fun m heq => hpin)⟩
        · rw [if_neg hg] at h
          simp only [List.append_assoc, List.cons_append, List.nil_append] at h
          rcases List.mem_append.mp h with h2 | h2
          · exact Or.inl h2
          · rcases List.mem_cons.mp h2 with rfl | h3
            · exact Or.inr ⟨(fun c p heq => nomatch heq), (fun m heq => nomatch heq)⟩
            · rcases List.mem_cons.mp h3 with rfl | h4
              · exact Or.inr ⟨(fun c p heq => nomatch heq), (fun m heq => nomatch heq)⟩
              · rcases List.mem_singleton.mp h4 with rfl
                exact Or.inr ⟨(fun c p heq => nomatch heq), (fun m heq => nomatch heq)⟩
  constructor
  · intro c p hmem
    rcases deliverLatest_fold_mem options chatID env _ hstep targets _ _ hmem with h2 | h2
    · rcases List.mem_singleton.mp h2 with heq
      exact nomatch heq
    · exact h2.1 c p rfl
  · intro m hmem
    rcases deliverLatest_fold_mem options chatID env _ hstep targets _ _ hmem with h2 | h2
    · rcases List.mem_singleton.mp h2 with heq
      exact nomatch heq
    · exact h2.2 m rfl

/-- Witness for C8 (amended): a concrete latest-revision delivery where the
pin step runs for the group target; the theorem yields that pinning was
enabled and the target was not private. -/
theorem deliverLatest_pinOnlyGroup_witness :
    (false = false ∧ (⟨AutoRecapSendMode.publicly, 4, true⟩ : RecapOptions).pinAutoRecapMessage = true) :=
  (deliverLatest_pinOnlyGroup ⟨.publicly, 4, true⟩ 1 [⟨1, false⟩, ⟨42, true⟩]
    ⟨fun _ => .ok 9, fun _ => .ok (), false⟩ [⟨1, 100, true⟩]).1 1 false (by decide)

theorem sendEvCount_take_le (l : List Ev) (n : Nat) :
    sendEvCount (l.take n) ≤ sendEvCount l :=
  List.Sublist.length_le (List.Sublist.filter _ (List.take_sublist n l))

theorem limiterDominates_append (a b : List Ev)
    (ha : limiterDominates a) (hb : limiterDominates b) :
    limiterDominates (a ++ b) := by
  intro n
  rw [List.take_append_eq_append_take]
  unfold sendEvCount takeEvCount
  rw [List.filter_append, List.filter_append, List.length_append, List.length_append]
  exact Nat.add_le_add (ha n) (hb (n - a.length))

theorem limiterDominates_take_block (rest : List Ev)
    (hs : sendEvCount rest ≤ 1) :
    limiterDominates (Ev.take :: rest) := by
  intro n
  cases n with
  | zero => simp [sendEvCount, takeEvCount]
  | succ m =>
    rw [List.take_succ_cons]
    have h3 := sendEvCount_take_le rest m
    unfold sendEvCount at hs h3
    unfold sendEvCount takeEvCount
    simp only [List.filter_cons, show isSendEv Ev.take = false from rfl,
      show isTakeEv Ev.take = true from rfl, Bool.false_eq_true, if_false,
      if_true, List.length_cons]
    omega

theorem pinStepLatest_no_send (st : PinStore) (c : Int) (m : Nat) (b : Bool) :
    sendEvCount (pinStepLatest st c m b).2 = 0 := by
  unfold pinStepLatest
  rcases hfl : FindLastTelegramPinnedMessage st c b with e | last <;> rfl

theorem deliverStepLatest_dominates (options : RecapOptions) (chatID : Int)
    (env : DeliverEnv) (acc : PinStore × List Ev) (tgt : TargetChat)
    (hacc : limiterDominates acc.2) :
    limiterDominates (deliverStepLatest options chatID env acc tgt).2 := by
  unfold deliverStepLatest
  split
  · exact limiterDominates_append _ _ hacc (limiterDominates_take_block [] (by decide))
  · rcases hsr : env.sendResult tgt with e | msgID <;> dsimp only
    · exact limiterDominates_append _ _ hacc (limiterDominates_take_block [] (by decide))
    · split
      · simp only [List.append_assoc, List.cons_append, List.nil_append]
        refine limiterDominates_append _ _ hacc ?_
        refine limiterDominates_take_block _ ?_
        have hps := pinStepLatest_no_send acc.1 chatID msgID env.lookupFails
        unfold sendEvCount at hps ⊢
        simp only [List.filter_cons, show isSendEv (Ev.send tgt.chatID tgt.isPrivateSubscriber) = true from rfl,
          show isSendEv (Ev.pinStepFor tgt.chatID tgt.isPrivateSubscriber) = false from rfl,
          Bool.false_eq_true, if_false, if_true, List.length_cons, hps]
        omega
      · simp only [List.append_assoc, List.cons_append, List.nil_append]
        refine limiterDominates_append _ _ hacc ?_
        refine limiterDominates_take_block _ ?_
        unfold sendEvCount
        simp only [List.filter_cons, show isSendEv (Ev.send tgt.chatID tgt.isPrivateSubscriber) = true from rfl,
          show isSendEv (Ev.saveRecord msgID false) = false from rfl,
          Bool.false_eq_true, if_false, if_true, List.length_cons]
        simp [List.filter_nil]

theorem deliverLatest_fold_dominates (options : RecapOptions) (chatID : Int)
    (env : DeliverEnv) (targets : List TargetChat) :
    ∀ acc : PinStore × List Ev, limiterDominates acc.2 →
      limiterDominates ((targets.foldl (deliverStepLatest options chatID env) acc).2) := by
  induction targets with
  | nil => intro acc hacc; exact hacc
  | cons t ts ih =>
    intro acc hacc
    exact ih _ (deliverStepLatest_dominates options chatID env acc t hacc)

theorem deliverStepLatest_extends (options : RecapOptions) (chatID : Int)
    (env : DeliverEnv) (acc : PinStore × List Ev) (tgt : TargetChat) :
    ∃ t, (deliverStepLatest options chatID env acc tgt).2 = acc.2 ++ t := by
  unfold deliverStepLatest
  split
  · exact ⟨[Ev.take], rfl⟩
  · rcases hsr : env.sendResult tgt with e | msgID <;> dsimp only
    · exact ⟨[Ev.take], rfl⟩
    · split
      · refine ⟨Ev.take :: Ev.send tgt.chatID tgt.isPrivateSubscriber ::
          Ev.pinStepFor tgt.chatID tgt.isPrivateSubscriber ::
          (pinStepLatest acc.1 chatID msgID env.lookupFails).2, ?_⟩
        simp [List.append_assoc]
      · refine ⟨[Ev.take, Ev.send tgt.chatID tgt.isPrivateSubscriber,
          Ev.saveRecord msgID false], ?_⟩
        simp [List.append_assoc]

theorem deliverLatest_fold_extends (options : RecapOptions) (chatID : Int)
    (env : DeliverEnv) (targets : List TargetChat) :
    ∀ acc : PinStore × List Ev,
      ∃ t, (targets.foldl (deliverStepLatest options chatID env) acc).2 = acc.2 ++ t := by
  induction targets with
  | nil => intro acc; exact ⟨[], by simp⟩
  | cons tg ts ih =>
    intro acc
    rcases deliverStepLatest_extends options chatID env acc tg with ⟨t1, h1⟩
    rcases ih (deliverStepLatest options chatID env acc tg) with ⟨t2, h2⟩
    refine ⟨t1 ++ t2, ?_⟩
    simp only [List.foldl_cons]
    rw [h2, h1, List.append_assoc]

/-- C9 counterexample: the claim "the limiter instance is shared across all
concurrent runs" fails: `ratelimit.New(5)` is executed INSIDE each
delivery run (command_common.go line 2091, and line 678 in the first
revision), so every run constructs its own limiter - the creation event
appears once per run, twice across two runs, where a shared instance would
be created once outside the runs. -/
theorem limiterCreatedPerRun :
    ((deliverLatest ⟨.publicly, 4, false⟩ 1 [⟨1, false⟩]
        ⟨fun _ => .ok 9, fun _ => .ok (), false⟩ []).2
      ++ (deliverLatest ⟨.publicly, 4, false⟩ 1 [⟨1, false⟩]
        ⟨fun _ => .ok 9, fun _ => .ok (), false⟩ []).2).count
      (Ev.limiterCreate 5) = 2 := by
  decide

/-- C9 (amended): each delivery run creates its own token-bucket limiter at
rate 5 per second - the run's trace starts with that creation - and within
the run every outbound send (group broadcast and private subscriber alike)
passes through the limiter: in every prefix of the trace the number of sends
never exceeds the number of limiter takes. -/
theorem deliverLatest_rateLimited (options : RecapOptions) (chatID : Int)
    (targets : List TargetChat) (env : DeliverEnv) (st : PinStore) :
    (deliverLatest options chatID targets env st).2.head? = some (Ev.limiterCreate 5)
    ∧ limiterDominates (deliverLatest options chatID targets env st).2 := by
  constructor
  · rcases deliverLatest_fold_extends options chatID env targets (st, [Ev.limiterCreate 5])
      with ⟨t, ht⟩
    unfold deliverLatest
    rw [ht]
    rfl
  · refine deliverLatest_fold_dominates options chatID env targets _ ?_
    intro n
    cases n <;> simp [sendEvCount, takeEvCount, isSendEv, isTakeEv]

/-- C7: for every run whose history window holds 5 or fewer messages, the
run is skipped before summarization: the auto-recap `summarize`
(command_common.go lines 1924-1927, identically lines 617-620 of the first
revision) returns with no page-creation call, no send, and an unchanged
record store, and the manual-recap callback handler (callback_query.go
lines 690-701) answers with an error response having created no page and
sent no recap message - neither caller proceeds to publishing. -/
theorem insufficientHistory_skipsRun (chatID : Int) (options : RecapOptions)
    (subscribers : List Subscriber) (env : RunEnv) (st : PinStore)
    (cbChatID : Int) (cenv : CallbackEnv) (hs1 hs2 : List Unit)
    (h1 : env.historiesResult = .ok hs1) (h2 : hs1.length ≤ 5)
    (h3 : cenv.historiesResult = .ok hs2) (h4 : hs2.length ≤ 5) :
    summarizeLatest chatID options subscribers env st = (st, [])
    ∧ handleCallbackQuerySelectHours cbChatID cenv = (.errorResponse, []) := by
  constructor
  · unfold summarizeLatest
    cases hgc : env.getChatResult with
    | error e => rfl
    | ok ct =>
      rw [h1]
      dsimp only
      rw [if_pos h2]
  · unfold handleCallbackQuerySelectHours
    rw [h3]
    dsimp only
    rw [if_pos h4]

/-- Witness for C7: a window of three messages skips both paths. -/
theorem insufficientHistory_skipsRun_witness :
    summarizeLatest 1 ⟨.publicly, 4, true⟩ [⟨42⟩]
        ⟨.ok .supergroup, .ok [(), (), ()], .ok ["s"], .ok (), .ok (), .ok "c", false,
          .ok ["https://telegra.ph/x"], ⟨fun _ => .ok 9, fun _ => .ok (), false⟩⟩ []
      = ([], [])
    ∧ handleCallbackQuerySelectHours 1
        ⟨.ok [(), (), ()], .ok ["s"], .ok (), .ok (), .ok "c", .ok ["https://telegra.ph/x"], .ok 9⟩
      = (.errorResponse, []) :=
  insufficientHistory_skipsRun 1 ⟨.publicly, 4, true⟩ [⟨42⟩]
    ⟨.ok .supergroup, .ok [(), (), ()], .ok ["s"], .ok (), .ok (), .ok "c", false,
      .ok ["https://telegra.ph/x"], ⟨fun _ => .ok 9, fun _ => .ok (), false⟩⟩ []
    1 ⟨.ok [(), (), ()], .ok ["s"], .ok (), .ok (), .ok "c", .ok ["https://telegra.ph/x"], .ok 9⟩
    [(), (), ()] [(), (), ()] rfl (by decide) rfl (by decide)

end AutoRecap
